import Mathlib

/-!
Verification of the hybrid email storage and retrieval engine
(`database/email_storage.py`, `database/vector_store.py`, `database/email_db.py`,
`database/embeddings.py`, `database/schema.py`).

The Python code is shallowly embedded: dictionaries become structures, SQLite
tables become lists of row structures (rowid order = list order, `fetchone` on a
filter = first match), the FAISS flat L2 index becomes a list of integer
vectors, and external numeric primitives (base64url decoding, the sentence
transformer, date parsing, the reciprocal L2 norm used for normalisation) are
abstract function parameters collected in an `Env`.  Embedding scalars are
modelled as integers — an ordered-ring stand-in for the source's floats; no
claim depends on division or roots, and the one scaling step (normalisation)
multiplies by the abstract `l2inv` factor.  Wall-clock timestamps are
integers supplied by `Env`.
Fallible external calls (the encoder, FAISS `add`, disk writes) are fault
parameters so that the error-handling branches of the source are exercised.
-/

namespace EmailEngine

/-- ASCII lower-casing of one character (the code's inputs here — header
names, search queries — are ASCII; SQLite's LIKE folds only ASCII). -/
def lowerChar (c : Char) : Char :=
  if 'A' ≤ c ∧ c ≤ 'Z' then Char.ofNat (c.toNat + 32) else c

/-- ASCII `str.lower()`. -/
def toLowerStr (s : String) : String :=
  ⟨s.data.map lowerChar⟩

/-- The whitespace characters stripped by `str.strip()` (the common four;
the exotic ASCII whitespace characters never occur in the claims' inputs). -/
def isWS (c : Char) : Bool :=
  c = ' ' || c = '\t' || c = '\n' || c = '\r'

/-- `str.strip()`. -/
def trimStr (s : String) : String :=
  ⟨((s.data.dropWhile isWS).reverse.dropWhile isWS).reverse⟩

/-- `str.split(sep)` on a single separator character: at least one chunk,
empty chunks preserved. -/
def splitChar (c : Char) : List Char → List (List Char)
  | [] => [[]]
  | x :: xs =>
    match splitChar c xs with
    | [] => [[x]]
    | y :: ys => if x = c then [] :: y :: ys else (x :: y) :: ys

/-- `str.split(',')` returning strings. -/
def splitOnCommaStr (s : String) : List String :=
  (splitChar ',' s.data).map (fun l => ⟨l⟩)

/-- `sep.join(parts)`. -/
def intercalateStr (sep : String) : List String → String
  | [] => ""
  | [x] => x
  | x :: y :: ys => x ++ sep ++ intercalateStr sep (y :: ys)

/-- Case-insensitive substring test modelling the SQLite pattern
`column LIKE percent-query-percent` (ASCII case folding). -/
def likeMatch (needle hay : String) : Bool :=
  decide ((toLowerStr needle).data <:+: (toLowerStr hay).data)

/-- Split a character list at the first occurrence of `c`:
returns the part before and the part after, when `c` occurs. -/
def splitFirst (c : Char) : List Char → Option (List Char × List Char)
  | [] => none
  | x :: xs =>
    if x = c then some ([], xs)
    else match splitFirst c xs with
      | none => none
      | some (l, r) => some (x :: l, r)

/-- Whether the regex `([^<]*)<([^>]*)>` of `_parse_email_address` matches
the string under `re.match`: the string has a first open angle bracket with
a close bracket somewhere after it. -/
def angleMatches (s : String) : Bool :=
  match splitFirst '<' s.data with
  | none => false
  | some (_, rest) => (splitFirst '>' rest).isSome

/-- EmailStorage._parse_email_address: the regex `([^<]*)<([^>]*)>` under
`re.match` succeeds exactly when the string has a first angle-open bracket with
a matching close bracket somewhere after it; group 1 is everything before the
first open bracket and group 2 everything from there up to the first close
bracket.  On no match the whole stripped string is treated as a bare address;
empty input short-circuits to a pair of empty strings. -/
def parse_email_address (s : String) : String × String :=
  if s = "" then ("", "")
  else
    match splitFirst '<' s.data with
    | none => ("", trimStr s)
    | some (before, rest) =>
      match splitFirst '>' rest with
      | none => ("", trimStr s)
      | some (mid, _) => (trimStr (String.mk before), trimStr (String.mk mid))

/-- One entry of `payload.headers`. -/
structure Header where
  name : String
  value : String
deriving Repr, DecidableEq

/-- The `body` sub-dictionary of a payload part
(`data` optional, as the Python code tests membership of the key). -/
structure PartBody where
  data : Option String
  size : Nat
  attachmentId : Option String
deriving Repr, DecidableEq

/-- A Gmail payload part: a tree with optional `body` and optional `parts`.
`parts = some []` models a present-but-empty list, which the Python membership
test `'parts' in payload` distinguishes from an absent key. -/
inductive Payload where
  | mk (mimeType : String) (filename : Option String) (headers : List Header)
       (body : Option PartBody) (parts : Option (List Payload)) : Payload
deriving Repr

/-- The `mimeType` field of a payload. -/
def Payload.mimeType : Payload → String
  | .mk m _ _ _ _ => m

/-- The `filename` field of a payload. -/
def Payload.filename : Payload → Option String
  | .mk _ f _ _ _ => f

/-- The `headers` field of a payload. -/
def Payload.headers : Payload → List Header
  | .mk _ _ h _ _ => h

/-- The `body` field of a payload. -/
def Payload.body : Payload → Option PartBody
  | .mk _ _ _ b _ => b

/-- The `parts` field of a payload. -/
def Payload.parts : Payload → Option (List Payload)
  | .mk _ _ _ _ p => p

/-- The Python test `'data' in part.get('body', {})` together with the
subsequent read `part['body']['data']`. -/
def bodyData : Option PartBody → Option String
  | some pb => pb.data
  | none => none

/-- The branch selected for one part by the if/elif chain of the
`_extract_body` loop: a `text/plain` part with data overwrites `text_body`,
else a `text/html` part with data overwrites `html_body`, else a part with
nested parts is recursed into, else the part is ignored. -/
inductive BodyStep where
  | setPlain (s : String)
  | setHtml (s : String)
  | recurse (ps : List Payload)
  | skip
deriving Repr

/-- Classify one part according to the `_extract_body` loop's if/elif chain. -/
def bodyStep (p : Payload) : BodyStep :=
  match p with
  | .mk mt _ _ b sub =>
    match bodyData b with
    | some s =>
      if mt = "text/plain" then .setPlain s
      else if mt = "text/html" then .setHtml s
      else
        match sub with
        | some ps => .recurse ps
        | none => .skip
    | none =>
      match sub with
      | some ps => .recurse ps
      | none => .skip

theorem bodyStep_recurse_sizeOf {p : Payload} {ps : List Payload}
    (h : bodyStep p = .recurse ps) : sizeOf ps < sizeOf p := by
  obtain ⟨mt, fn, hd, b, sub⟩ := p
  have hsub : sub = some ps := by
    simp only [bodyStep] at h
    rcases hb : bodyData b with _ | s <;> simp only [hb] at h
    · rcases sub with _ | ps' <;> simp_all
    · by_cases h1 : mt = "text/plain" <;> by_cases h2 : mt = "text/html" <;>
        rcases sub with _ | ps' <;> simp_all
  subst hsub
  simp
  omega

/-- The loop of EmailStorage._extract_body over a `parts` list, carried out
as a fold over the accumulated `(text_body, html_body)` pair: a direct
`text/plain` (resp. `text/html`) part with data overwrites the accumulator
unconditionally, while a recursive result from a nested multipart is taken
only when the corresponding accumulator entry is still empty. -/
def extract_body_list (d : String → String) :
    List Payload → String → String → String × String
  | [], t, h => (t, h)
  | p :: rest, t, h =>
    match hstep : bodyStep p with
    | .setPlain s => extract_body_list d rest (d s) h
    | .setHtml s => extract_body_list d rest t (d s)
    | .recurse ps =>
      let r := extract_body_list d ps "" ""
      extract_body_list d rest
        (if r.1 ≠ "" ∧ t = "" then r.1 else t)
        (if r.2 ≠ "" ∧ h = "" then r.2 else h)
    | .skip => extract_body_list d rest t h
termination_by l _ _ => sizeOf l
decreasing_by
  all_goals simp_wf
  all_goals try omega
  all_goals
    have hps := bodyStep_recurse_sizeOf hstep
    omega

/-- EmailStorage._extract_body.  `d` is the composite external primitive
`base64.urlsafe_b64decode` followed by UTF-8 decoding with replacement. -/
def extract_body (d : String → String) (p : Payload) : String × String :=
  match p with
  | .mk mt _ _ b sub =>
    match sub with
    | some ps => extract_body_list d ps "" ""
    | none =>
      match bodyData b with
      | some s => if mt = "text/html" then ("", d s) else (d s, "")
      | none => ("", "")

/-- `_extract_body(email_data.get('payload', {}))`: an absent payload behaves
like an empty dictionary, yielding empty bodies. -/
def extract_body_opt (d : String → String) : Option Payload → String × String
  | some p => extract_body d p
  | none => ("", "")

/-- The body data of a part that is a direct `text/plain` leaf (a data-bearing
part whose branch in the extraction loop overwrites `text_body`). -/
def directPlainData (p : Payload) : Option String :=
  match p with
  | .mk mt _ _ b _ =>
    match bodyData b with
    | some s => if mt = "text/plain" then some s else none
    | none => none

/-- The body data of a part that is a direct `text/html` leaf (a data-bearing
part whose branch in the extraction loop overwrites `html_body`). -/
def directHtmlData (p : Payload) : Option String :=
  match p with
  | .mk mt _ _ b _ =>
    match bodyData b with
    | some s => if mt ≠ "text/plain" ∧ mt = "text/html" then some s else none
    | none => none

/-- One attachment dictionary as built by EmailStorage._extract_attachments. -/
structure AttachmentData where
  filename : String
  mimeType : String
  size : Nat
  attachmentId : String
deriving Repr, DecidableEq

/-- EmailStorage._extract_attachments over a `parts` list: a part with a
non-empty filename contributes an attachment, and (unlike body extraction,
where the branches are exclusive) a part with nested parts is always recursed
into.  A filename-bearing part without a `body` dictionary would raise a
KeyError in Python; the model reads size 0 and an empty attachment id there,
a case no claim exercises. -/
def extract_attachments_list : List Payload → List AttachmentData
  | [] => []
  | Payload.mk mt fn _ b sub :: rest =>
    let here :=
      match fn with
      | some f =>
        if f ≠ "" then
          [⟨f, if mt = "" then "application/octet-stream" else mt,
            (b.map (·.size)).getD 0, ((b.bind (·.attachmentId)).getD "")⟩]
        else []
      | none => []
    let nested :=
      match sub with
      | some ps => extract_attachments_list ps
      | none => []
    here ++ nested ++ extract_attachments_list rest

/-- EmailStorage._extract_attachments on a payload dictionary. -/
def extract_attachments (p : Payload) : List AttachmentData :=
  match p.parts with
  | some ps => extract_attachments_list ps
  | none => []

/-- `_extract_attachments(email_data.get('payload', {}))`. -/
def extract_attachments_opt : Option Payload → List AttachmentData
  | some p => extract_attachments p
  | none => []

/-- `next((h['value'] for h in headers if h['name'].lower() == n), dflt)`. -/
def headerValue (headers : List Header) (n : String) (dflt : String) : String :=
  match headers.find? (fun hh => toLowerStr hh.name = n) with
  | some hh => hh.value
  | none => dflt

/-- Same lookup with default `None`. -/
def headerValueOpt (headers : List Header) (n : String) : Option String :=
  (headers.find? (fun hh => toLowerStr hh.name = n)).map (·.value)

/-- A Gmail API message object as consumed by the ingestion pipeline. -/
structure EmailData where
  id : String
  threadId : String
  snippet : String
  labelIds : List String
  payload : Option Payload

/-- `email_data.get('payload', {}).get('headers', [])`. -/
def EmailData.headersOf (ed : EmailData) : List Header :=
  match ed.payload with
  | some p => p.headers
  | none => []

/-! ## Relational store (schema.py tables, SQLite rows as list entries) -/

/-- A `users` row (`name` modelled as a plain string: every call site of
`_store_user` passes the parsed display-name string, possibly empty). -/
structure UserRow where
  id : Nat
  email : String
  name : String
deriving Repr, DecidableEq

/-- An `email_threads` row (`last_updated`/`created_at` wall-clock columns
are elided; no claim mentions them). -/
structure ThreadRow where
  id : Nat
  thread_id : String
  subject : String
  snippet : String
deriving Repr, DecidableEq

/-- An `emails` row (`raw_data`/`created_at` elided; no claim mentions them). -/
structure EmailRow where
  id : Nat
  message_id : String
  thread_id : Nat
  sender_id : Option Nat
  subject : String
  body_text : String
  body_html : String
  snippet : String
  timestamp : Int
  in_reply_to : Option String
  is_read : Bool
  is_archived : Bool
  is_deleted : Bool
deriving Repr, DecidableEq

/-- A `recipients` row. -/
structure RecipientRow where
  email_id : Nat
  user_id : Nat
  rtype : String
deriving Repr, DecidableEq

/-- An `attachments` row. -/
structure AttachmentRow where
  email_id : Nat
  filename : String
  content_type : String
  size : Nat
  attachment_id : String
deriving Repr, DecidableEq

/-- A `labels` row. -/
structure LabelRow where
  id : Nat
  name : String
deriving Repr, DecidableEq

/-- The SQLite database: each table is its list of rows in rowid order, with
AUTOINCREMENT counters for the tables whose generated ids the code reads. -/
structure DB where
  users : List UserRow
  threads : List ThreadRow
  emails : List EmailRow
  recipients : List RecipientRow
  attachments : List AttachmentRow
  labels : List LabelRow
  emailLabels : List (Nat × Nat)
  nextUserId : Nat
  nextThreadId : Nat
  nextEmailId : Nat
  nextLabelId : Nat
deriving Repr, DecidableEq

/-- The empty database produced by schema creation. -/
def DB.empty : DB :=
  ⟨[], [], [], [], [], [], [], 1, 1, 1, 1⟩

/-- External primitives injected into the embedding: base64url+UTF-8 decoding,
`datetime.strptime` over the two accepted formats (`none` = both fail),
`datetime.now()`, the sentence-transformer encoder (`Except` so its failure
branch — the zero-vector fallback — is in the model), and the reciprocal L2
norm `1 / numpy.linalg.norm v` used when normalising a nonzero vector. -/
structure Env where
  decode : String → String
  parseDate : String → Option Int
  now : Int
  encode : String → Except Unit (List ℤ)
  l2inv : List ℤ → ℤ

namespace EmailStorage

/-- EmailStorage._parse_date: try the two `strptime` formats (collapsed into
the external `parseDate` primitive), fall back to the current time. -/
def parse_date (env : Env) (s : String) : Int :=
  (env.parseDate s).getD env.now

/-- EmailStorage._store_thread: reuse the row matching the Gmail thread id
(only its elided `last_updated` column is touched on reuse), else insert. -/
def store_thread (db : DB) (thread_id subject snippet : String) : DB × Nat :=
  match db.threads.find? (fun t => t.thread_id = thread_id) with
  | some t => (db, t.id)
  | none =>
    ({ db with
        threads := db.threads ++ [⟨db.nextThreadId, thread_id, subject, snippet⟩]
        nextThreadId := db.nextThreadId + 1 },
      db.nextThreadId)

/-- EmailStorage._store_user: an empty address short-circuits to `None`;
otherwise reuse the row with that address or insert a new one. -/
def store_user (db : DB) (email_addr name : String) : DB × Option Nat :=
  if email_addr = "" then (db, none)
  else
    match db.users.find? (fun u => u.email = email_addr) with
    | some u => (db, some u.id)
    | none =>
      ({ db with
          users := db.users ++ [⟨db.nextUserId, email_addr, name⟩]
          nextUserId := db.nextUserId + 1 },
        some db.nextUserId)

/-- EmailStorage._store_recipients: split the header on commas, strip and
parse each chunk, and for a non-empty parsed address store the user and a
recipient row (an empty parsed address contributes nothing). -/
def store_recipient_chunk (email_id : Nat) (recipient_type : String)
    (acc : DB) (chunk : String) : DB :=
  let p := parse_email_address (trimStr chunk)
  if p.2 ≠ "" then
    let r := store_user acc p.2 p.1
    match r.2 with
    | some uid =>
      { r.1 with recipients := r.1.recipients ++ [⟨email_id, uid, recipient_type⟩] }
    | none => r.1
  else acc

/-- The loop of `_store_recipients` over the comma-separated chunks. -/
def store_recipients (db : DB) (email_id : Nat) (recipients_str : String)
    (recipient_type : String) : DB :=
  if recipients_str = "" then db
  else
    (splitOnCommaStr recipients_str).foldl (store_recipient_chunk email_id recipient_type) db

/-- EmailStorage._store_attachment. -/
def store_attachment (db : DB) (email_id : Nat) (a : AttachmentData) : DB :=
  { db with
      attachments :=
        db.attachments ++ [⟨email_id, a.filename, a.mimeType, a.size, a.attachmentId⟩] }

/-- EmailStorage._store_label: get-or-create the label row, then associate it
with the email via INSERT OR IGNORE on the (email_id, label_id) primary key. -/
def store_label (db : DB) (email_id : Nat) (label_name : String) : DB :=
  let r : DB × Nat :=
    match db.labels.find? (fun l => l.name = label_name) with
    | some l => (db, l.id)
    | none =>
      ({ db with
          labels := db.labels ++ [⟨db.nextLabelId, label_name⟩]
          nextLabelId := db.nextLabelId + 1 },
        db.nextLabelId)
  if (email_id, r.2) ∈ r.1.emailLabels then r.1
  else { r.1 with emailLabels := r.1.emailLabels ++ [(email_id, r.2)] }

/-- The `emails` row built by the INSERT of EmailStorage.store_email on a
fresh message: its generated id is the AUTOINCREMENT counter after the
thread and sender writes (which do not touch it), the flags come from the
payload's labels, and the sender id is `_store_user`'s result. -/
def fresh_row (db : DB) (ed : EmailData) (env : Env) : EmailRow :=
  let headers := ed.headersOf
  let subject := headerValue headers "subject" "No Subject"
  let bodies := extract_body_opt env.decode ed.payload
  let r1 := store_thread db ed.threadId subject ed.snippet
  let sender_parsed := parse_email_address (headerValue headers "from" "")
  let r2 := store_user r1.1 sender_parsed.2 sender_parsed.1
  ⟨r2.1.nextEmailId, ed.id, r1.2, r2.2, subject, bodies.1, bodies.2,
    ed.snippet, parse_date env (headerValue headers "date" ""),
    headerValueOpt headers "in-reply-to",
    !(ed.labelIds.contains "UNREAD"), !(ed.labelIds.contains "INBOX"),
    ed.labelIds.contains "TRASH"⟩

/-- The fresh-message branch of EmailStorage.store_email: header extraction,
then the transactional writes (thread, sender, email row, recipients, cc
recipients, attachments, labels).  After the email INSERT the code
re-selects the row id by `message_id` (first match in rowid order), which
the model reproduces literally. -/
def ingest_new (db : DB) (ed : EmailData) (env : Env) : DB × Nat :=
  let headers := ed.headersOf
  let subject := headerValue headers "subject" "No Subject"
  let sender := headerValue headers "from" ""
  let recipients := headerValue headers "to" ""
  let cc := headerValue headers "cc" ""
  let labels := ed.labelIds
  let atts := extract_attachments_opt ed.payload
  let r1 := store_thread db ed.threadId subject ed.snippet
  let sender_parsed := parse_email_address sender
  let r2 := store_user r1.1 sender_parsed.2 sender_parsed.1
  let row : EmailRow := fresh_row db ed env
  let db3 : DB :=
    { r2.1 with
        emails := r2.1.emails ++ [row]
        nextEmailId := r2.1.nextEmailId + 1 }
  let email_id := ((db3.emails.find? (fun e => e.message_id = ed.id)).map (·.id)).getD 0
  let db4 := store_recipients db3 email_id recipients "to"
  let db5 := if cc ≠ "" then store_recipients db4 email_id cc "cc" else db4
  let db6 := atts.foldl (fun acc a => store_attachment acc email_id a) db5
  let db7 := labels.foldl (fun acc l => store_label acc email_id l) db6
  (db7, email_id)

/-- EmailStorage.store_email: the duplicate check on `message_id` first,
then the fresh-message ingestion. -/
def store_email (db : DB) (ed : EmailData) (env : Env) : DB × Nat :=
  match db.emails.find? (fun e => e.message_id = ed.id) with
  | some e => (db, e.id)
  | none => ingest_new db ed env

/-- The hydrated record returned by EmailStorage.get_email_by_id: the email
row's columns joined with the sender's address/name and the Gmail thread id,
plus recipients (flattened `(type, email, name)` join rows in table order —
the Python dict grouping by type carries the same multiset), attachments and
label names. -/
structure EmailRecord where
  id : Nat
  message_id : String
  subject : String
  body_text : String
  body_html : String
  snippet : String
  timestamp : Int
  is_read : Bool
  is_archived : Bool
  is_deleted : Bool
  sender_email : String
  sender_name : String
  gmail_thread_id : String
  recipients : List (String × String × String)
  attachments : List AttachmentRow
  labels : List String
deriving Repr, DecidableEq

/-- EmailStorage.get_email_by_id: the INNER JOINs with `users` (on the
nullable `sender_id`) and `email_threads` make the whole lookup return
`None` whenever either join partner is missing, even though the email row
itself exists. -/
def get_email_by_id (db : DB) (email_id : Nat) : Option EmailRecord :=
  match db.emails.find? (fun e => e.id = email_id) with
  | none => none
  | some e =>
    match e.sender_id with
    | none => none
    | some sid =>
      match db.users.find? (fun u => u.id = sid) with
      | none => none
      | some u =>
        match db.threads.find? (fun t => t.id = e.thread_id) with
        | none => none
        | some t =>
          let recips :=
            (db.recipients.filter (fun r => r.email_id = email_id)).filterMap
              (fun r => (db.users.find? (fun u2 => u2.id = r.user_id)).map
                (fun u2 => (r.rtype, u2.email, u2.name)))
          let atts := db.attachments.filter (fun a => a.email_id = email_id)
          let lnames :=
            (db.emailLabels.filter (fun el => el.1 = email_id)).filterMap
              (fun el => (db.labels.find? (fun l => l.id = el.2)).map (·.name))
          some ⟨e.id, e.message_id, e.subject, e.body_text, e.body_html,
            e.snippet, e.timestamp, e.is_read, e.is_archived, e.is_deleted,
            u.email, u.name, t.thread_id, recips, atts, lnames⟩

/-- EmailStorage.get_email_by_message_id: select the row id by Gmail message
id, then delegate to `get_email_by_id`. -/
def get_email_by_message_id (db : DB) (message_id : String) : Option EmailRecord :=
  match db.emails.find? (fun e => e.message_id = message_id) with
  | none => none
  | some e => get_email_by_id db e.id

/-- The WHERE clause of EmailStorage.search_emails: case-insensitive substring
match on subject, text body, and (through the LEFT JOIN, so vacuously false
for a NULL sender) the sender's address and name. -/
def matchesQuery (db : DB) (q : String) (e : EmailRow) : Bool :=
  likeMatch q e.subject || likeMatch q e.body_text ||
    (match e.sender_id.bind (fun sid => db.users.find? (fun u => u.id = sid)) with
     | some u => likeMatch q u.email || likeMatch q u.name
     | none => false)

/-- EmailStorage.search_emails: filter by `matchesQuery`, order by timestamp
descending (insertion sort, a stable order on the tie cases SQLite leaves
unspecified), paginate, and hydrate each id with `get_email_by_id`. -/
def search_emails (db : DB) (q : String) (limit offset : Nat) :
    List (Option EmailRecord) :=
  let hits := db.emails.filter (matchesQuery db q)
  let ordered := hits.insertionSort (fun a b => b.timestamp ≤ a.timestamp)
  (((ordered.drop offset).take limit).map (·.id)).map (get_email_by_id db)

end EmailStorage

/-! ## Vector index (vector_store.py over a FAISS IndexFlatL2) -/

/-- The two primary persisted files of the index directory. -/
inductive FileName where
  | indexFile
  | metadataFile
deriving Repr, DecidableEq

/-- Persistence events emitted by a mutation: a write to a scratch `.temp`
file, the `os.replace` rename of the scratch file onto a primary file, or a
direct in-place `open(path, 'w')` rewrite of a primary file. -/
inductive FileOp where
  | writeTemp (f : FileName)
  | rename (f : FileName)
  | writeInPlace (f : FileName)
deriving Repr, DecidableEq

/-- A FAISS IndexFlatL2: a fixed dimension and the stored vectors in slot
order (`ntotal` = length). -/
structure FaissIndex where
  d : Nat
  vecs : List (List ℤ)
deriving Repr, DecidableEq

/-- `index.add(x)` for a single row: FAISS asserts the row width equals the
index dimension and raises otherwise; on success the row is appended. -/
def faissAdd (ix : FaissIndex) (v : List ℤ) : Except Unit FaissIndex :=
  if v.length = ix.d then .ok ⟨ix.d, ix.vecs ++ [v]⟩ else .error ()

/-- Squared Euclidean distance, the IndexFlatL2 metric. -/
def sqDist (a b : List ℤ) : ℤ :=
  ((a.zip b).map (fun p => (p.1 - p.2) * (p.1 - p.2))).sum

/-- `index.search(q, k)` for a single query row: raises on a dimension
mismatch; otherwise returns the k nearest slots in ascending-distance order
(stable insertion sort as the model's deterministic tie-break), padded with
sentinel slot `-1` when fewer than `k` vectors are stored. -/
def faissSearch (ix : FaissIndex) (q : List ℤ) (k : Nat) :
    Except Unit (List (Int × ℤ)) :=
  if q.length = ix.d then
    let scored := (List.range ix.vecs.length).map
      (fun i => (((i : Nat) : Int), sqDist q (ix.vecs.getD i [])))
    let ordered := scored.insertionSort (fun a b => a.2 ≤ b.2)
    let top := ordered.take k
    .ok (top ++ List.replicate (k - top.length) ((-1 : Int), (0 : ℤ)))
  else .error ()

/-- A metadata entry of `metadata['emails']` (the `datetime.now().isoformat()`
insertion timestamp is elided; no claim mentions it). -/
structure MetaEntry where
  email_id : Nat
  metadata : List (String × String)
deriving Repr, DecidableEq

/-- The in-memory vector store: configured dimension (384 at construction),
the FAISS index, and `metadata['emails']` as an insertion-ordered association
list keyed by slot id (Python dict keys are slot numbers as strings). -/
structure VectorStore where
  dimension : Nat
  index : FaissIndex
  emails : List (Nat × MetaEntry)
deriving Repr, DecidableEq

/-- A freshly initialised store: `IndexFlatL2(384)` plus empty metadata. -/
def VectorStore.init : VectorStore :=
  ⟨384, ⟨384, []⟩, []⟩

/-- Python dict assignment `metadata['emails'][k] = v`: overwrite in place if
the key exists (keeping its position), else append. -/
def assocUpsert (l : List (Nat × MetaEntry)) (k : Nat) (v : MetaEntry) :
    List (Nat × MetaEntry) :=
  if l.any (fun p => p.1 = k) then
    l.map (fun p => if p.1 = k then (k, v) else p)
  else l ++ [(k, v)]

/-- Fault injection for the external effects inside VectorStore.add_email:
`addFail = some true` models `index.add` raising an "index not trained"
error (the retrain branch), `some false` any other FAISS error (re-raised,
then swallowed by the outer handler), and `saveFail` a persistence failure
inside `_save` (swallowed; the insertion still succeeds in memory). -/
structure Faults where
  addFail : Option Bool
  saveFail : Bool
deriving Repr, DecidableEq

/-- The fault-free configuration. -/
def Faults.none : Faults := ⟨Option.none, false⟩

/-- VectorStore._save: write both files to `.temp` scratch paths, then
`os.replace` each onto its primary path.  On an injected failure it reports
`False` having written nothing (the model collapses partial writes, which no
claim distinguishes). -/
def VectorStore.saveOps (fl : Faults) : Bool × List FileOp :=
  if fl.saveFail then (false, [])
  else (true,
    [FileOp.writeTemp .indexFile, FileOp.writeTemp .metadataFile,
     FileOp.rename .indexFile, FileOp.rename .metadataFile])

/-- VectorStore._save_metadata: a direct in-place rewrite of the primary
metadata file, with no scratch file and no rename. -/
def VectorStore.saveMetadataOps : List FileOp :=
  [FileOp.writeInPlace .metadataFile]

/-- `embedding[:, :dimension]` / `numpy.hstack` zero padding: resize a vector
to the store dimension, truncating when longer and zero-padding when shorter
(the source guards this with a shape test, hence the outer branch). -/
def fitDimension (dim : Nat) (v : List ℤ) : List ℤ :=
  if v.length = dim then v
  else if dim < v.length then v.take dim
  else v ++ List.replicate (dim - v.length) 0

/-- The normalisation step of add_email: `norm.any()` is true exactly when
some component is nonzero, in which case every component is multiplied by
the reciprocal norm (the external `l2inv` primitive). -/
def normalizeEmb (env : Env) (v : List ℤ) : List ℤ :=
  if v.any (fun x => x ≠ 0) then v.map (fun x => x * env.l2inv v) else v

/-- VectorStore.add_email.  Empty embeddings are rejected with `None`
(the `None`-or-empty guard; NaN/Inf replacement is outside a rational model,
and claim C3 is stated for finite inputs).  The vector is fitted to the
store dimension, normalised, and appended at slot `ntotal`; an
"index not trained" FAISS failure rebuilds a fresh index (the slot key was
already computed from the old `ntotal`, exactly as in the source), any other
FAISS failure is caught by the outer handler and returns `None` with the
store untouched, and a `_save` failure is swallowed.  Returns the updated
store, the result (`some` slot id or `none`), and the persistence trace. -/
def VectorStore.add_email (vs : VectorStore) (env : Env) (fl : Faults)
    (email_id : Nat) (embedding : List ℤ) (md : List (String × String)) :
    VectorStore × Option Nat × List FileOp :=
  if embedding = [] then (vs, none, [])
  else
    let w := normalizeEmb env (fitDimension vs.dimension embedding)
    let index_id := vs.index.vecs.length
    let added : Except Unit FaissIndex :=
      match fl.addFail with
      | some true =>
        faissAdd ⟨vs.dimension, []⟩ w
      | some false => .error ()
      | none => faissAdd vs.index w
    match added with
    | .error _ => (vs, none, [])
    | .ok ix =>
      let vs1 : VectorStore :=
        { vs with index := ix, emails := assocUpsert vs.emails index_id ⟨email_id, md⟩ }
      (vs1, some index_id, (VectorStore.saveOps fl).2)

/-- VectorStore.search: a FAISS failure (in particular the dimension assert
on a non-canonical query) is caught and yields the empty list; otherwise
each returned slot is kept only when it is not the `-1` sentinel and still
has a metadata entry, and is mapped to that entry's email id. -/
def VectorStore.search (vs : VectorStore) (q : List ℤ) (k : Nat) :
    List (Nat × ℤ) :=
  match faissSearch vs.index q k with
  | .error _ => []
  | .ok hits =>
    hits.filterMap (fun p =>
      if p.1 ≠ -1 then
        match vs.emails.find? (fun m => (m.1 : Int) = p.1) with
        | some m => some (m.2.email_id, p.2)
        | none => none
      else none)

/-- VectorStore.delete_email: drop every metadata entry whose email id
matches (the index vectors stay), persist the metadata in place via
`_save_metadata`, and return how many entries were removed. -/
def VectorStore.delete_email (vs : VectorStore) (email_id : Nat) :
    VectorStore × Nat × List FileOp :=
  let matching := vs.emails.filter (fun p => p.2.email_id = email_id)
  ({ vs with emails := vs.emails.filter (fun p => p.2.email_id ≠ email_id) },
    matching.length, VectorStore.saveMetadataOps)

/-! ## Embedding adapter (embeddings.py) -/

namespace EmailEmbeddings

/-- EmailEmbeddings.get_embedding: truncate to the 8000-character budget,
invoke the external encoder, and on any encoder failure fall back to the
deterministic 384-dimensional zero vector. -/
def get_embedding (env : Env) (text : String) : List ℤ :=
  let t := if text.length > 8000 then (text.data.take 8000).asString else text
  match env.encode t with
  | .ok v => v
  | .error _ => List.replicate 384 0

/-- EmailEmbeddings.get_email_embedding: concatenate the subject line, the
sender line (only when the sender name is non-empty) and the text body —
falling back to the HTML body — with blank lines, then embed. -/
def get_email_embedding (env : Env) (rec : EmailStorage.EmailRecord) : List ℤ :=
  let parts : List String :=
    (if rec.subject ≠ "" then ["Subject: " ++ rec.subject] else []) ++
    (if rec.sender_name ≠ "" then
      ["From: " ++ rec.sender_name ++ " <" ++ rec.sender_email ++ ">"] else []) ++
    (if rec.body_text ≠ "" then [rec.body_text]
     else if rec.body_html ≠ "" then [rec.body_html] else [])
  get_embedding env (intercalateStr "\n\n" parts)

/-- EmailEmbeddings.get_query_embedding delegates to `get_embedding`. -/
def get_query_embedding (env : Env) (q : String) : List ℤ :=
  get_embedding env q

end EmailEmbeddings

/-! ## Unified engine (email_db.py) -/

/-- The state owned by an EmailDB instance: the SQLite database and the
vector store (file paths are construction-time configuration). -/
structure SysState where
  db : DB
  vs : VectorStore
deriving DecidableEq

namespace EmailDB

open EmailStorage

/-- EmailDB.store_email, the ingestion pipeline.  A message already visible
through `get_email_by_message_id` returns its existing id untouched.
Otherwise the relational store ingests the payload (its own duplicate check
included), the stored record is hydrated, and — when hydration succeeds and
the record has body content — it is embedded and inserted into the vector
store with subject/sender/timestamp metadata.  Each of those later steps
reports failure by value (`none` hydration, the encoder's zero fallback,
`add_email`'s `none`), so the pipeline always returns the relational id.
The source's `if embedding is None` guard is unreachable because
get_email_embedding always returns an array; the model inherits that. -/
def store_email (st : SysState) (ed : EmailData) (env : Env) (fl : Faults) :
    SysState × Nat :=
  match get_email_by_message_id st.db ed.id with
  | some rec => (st, rec.id)
  | none =>
    let r := EmailStorage.store_email st.db ed env
    let st1 : SysState := { st with db := r.1 }
    let email_id := r.2
    match get_email_by_id r.1 email_id with
    | none => (st1, email_id)
    | some stored =>
      if stored.body_text = "" ∧ stored.body_html = "" then (st1, email_id)
      else
        let embedding := EmailEmbeddings.get_email_embedding env stored
        let md := [("subject", stored.subject), ("sender", stored.sender_email),
                   ("timestamp", toString stored.timestamp)]
        let va := VectorStore.add_email st1.vs env fl email_id embedding md
        ({ st1 with vs := va.1 }, email_id)

/-- The merge loop of EmailDB.search: semantic ids first, then keyword ids,
each appended only when not already seen (the `seen_ids` set is exactly the
membership of the accumulator). -/
def mergeIds (semantic : List (Nat × ℤ)) (keywordIds : List Nat) : List Nat :=
  let l1 := semantic.foldl
    (fun acc p => if p.1 ∈ acc then acc else acc ++ [p.1]) []
  keywordIds.foldl (fun acc i => if i ∈ acc then acc else acc ++ [i]) l1

/-- EmailDB.search: embed the query, fetch `limit*2` semantic and keyword
candidates, merge with semantic priority, truncate to `limit`, hydrate in
order.  A `None` among the keyword results would make the Python subscript
`email['id']` raise, modelled as the `none` result. -/
def search (st : SysState) (q : String) (limit : Nat) (env : Env) :
    Option (List (Option EmailRecord)) :=
  let qv := EmailEmbeddings.get_query_embedding env q
  let semantic := VectorStore.search st.vs qv (limit * 2)
  let kw := search_emails st.db q (limit * 2) 0
  match kw.mapM (fun x => x) with
  | none => none
  | some kws =>
    let email_ids := (mergeIds semantic (kws.map (·.id))).take limit
    some (email_ids.map (get_email_by_id st.db))

end EmailDB

/-! ## Concrete instances (environments, payloads and states used to
evaluate the definitions at specific inputs) -/

/-- A concrete environment: identity decode, constant date parse, a constant
zero query/embedding vector, unit reciprocal norm. -/
def envW : Env :=
  ⟨fun s => s, fun _ => some 5, 9, fun _ => .ok (List.replicate 384 0), fun _ => 1⟩

/-- An environment whose encoder always fails. -/
def envFail : Env :=
  ⟨fun s => s, fun _ => none, 0, fun _ => .error (), fun _ => 1⟩

/-- A payload part that is a `text/plain` leaf carrying `s` as body data. -/
def plainLeaf (s : String) : Payload :=
  .mk "text/plain" none [] (some ⟨some s, 0, none⟩) none

/-- A concrete Gmail message with a parseable sender, a recipient list,
labels, and a plain-text body. -/
def edW : EmailData :=
  ⟨"m1", "t1", "snip", ["UNREAD", "TRASH"],
    some (.mk "text/plain" none
      [⟨"From", "A B <a@x.com>"⟩, ⟨"Subject", "Hi"⟩, ⟨"To", "c@x.com, D <d@y.com>"⟩]
      (some ⟨some "Hello", 0, none⟩) none)⟩

/-- A concrete Gmail message whose headers carry no From address. -/
def edNoFrom : EmailData :=
  ⟨"m2", "t2", "s2", [], some (.mk "text/plain" none [⟨"Subject", "Yo"⟩]
    (some ⟨some "Body", 0, none⟩) none)⟩

/-- The empty system state (fresh database, fresh vector store). -/
def stEmpty : SysState := ⟨DB.empty, VectorStore.init⟩

/-- A payload whose parts are two sibling `text/plain` leaves. -/
def twoPlainPayload : Payload :=
  .mk "multipart/mixed" none [] none (some [plainLeaf "A", plainLeaf "B"])

/-- The 384-dimensional zero vector. -/
def vzero : List ℤ := List.replicate 384 0

/-- A vector store holding one 384-dimensional zero vector at slot 0 for
email 7. -/
def vsOne : VectorStore :=
  ⟨384, ⟨384, [vzero]⟩, [(0, ⟨7, []⟩)]⟩

/-- A vector store holding two zero vectors, slot 0 for email 7 and slot 1
for email 8. -/
def vsTwo : VectorStore :=
  ⟨384, ⟨384, [vzero, vzero]⟩, [(0, ⟨7, []⟩), (1, ⟨8, []⟩)]⟩

/-- A database with one user (id 10), one thread (id 3) and one email
(id 2, subject containing the letter pair `zz`). -/
def dbKw : DB :=
  ⟨[⟨10, "u@x", "U"⟩], [⟨3, "tg", "s", "sn"⟩],
   [⟨2, "mk", 3, some 10, "zz", "", "", "", 0, none, true, true, false⟩],
   [], [], [], [], 11, 4, 5, 1⟩

/-- The combined state used for the hybrid-search evaluation: semantic arm
answers email 7 from `vsOne`, keyword arm answers email 2 from `dbKw`. -/
def stKw : SysState := ⟨dbKw, { vsOne with emails := [(0, ⟨1, []⟩)] }⟩

/-! ## Helper lemmas -/

theorem find?_append_of_none {α : Type} {p : α → Bool} {l1 l2 : List α}
    (h : l1.find? p = none) : (l1 ++ l2).find? p = l2.find? p := by
  induction l1 with
  | nil => simp
  | cons a l ih =>
    rcases hpa : p a with _ | _
    · rw [List.find?_cons_of_neg _ (by simp [hpa])] at h
      rw [List.cons_append, List.find?_cons_of_neg _ (by simp [hpa])]
      exact ih h
    · rw [List.find?_cons_of_pos _ hpa] at h
      exact absurd h (by simp)

theorem foldl_preserves {α β γ : Type} (f : β → α → β) (g : β → γ)
    (hf : ∀ b a, g (f b a) = g b) :
    ∀ (l : List α) (b : β), g (List.foldl f b l) = g b := by
  intro l
  induction l with
  | nil => intro b; rfl
  | cons a l ih => intro b; rw [List.foldl_cons, ih, hf]

theorem ebl_nil (d : String → String) (t h : String) :
    extract_body_list d [] t h = (t, h) := by
  simp [extract_body_list]

theorem ebl_setPlain {p : Payload} {s : String} (hs : bodyStep p = .setPlain s)
    (d : String → String) (rest : List Payload) (t h : String) :
    extract_body_list d (p :: rest) t h = extract_body_list d rest (d s) h := by
  rw [extract_body_list]
  split <;> simp_all

theorem ebl_setHtml {p : Payload} {s : String} (hs : bodyStep p = .setHtml s)
    (d : String → String) (rest : List Payload) (t h : String) :
    extract_body_list d (p :: rest) t h = extract_body_list d rest t (d s) := by
  rw [extract_body_list]
  split <;> simp_all

theorem ebl_recurse {p : Payload} {ps : List Payload}
    (hs : bodyStep p = .recurse ps) (d : String → String) (rest : List Payload)
    (t h : String) :
    extract_body_list d (p :: rest) t h =
      extract_body_list d rest
        (if (extract_body_list d ps "" "").1 ≠ "" ∧ t = ""
          then (extract_body_list d ps "" "").1 else t)
        (if (extract_body_list d ps "" "").2 ≠ "" ∧ h = ""
          then (extract_body_list d ps "" "").2 else h) := by
  rw [extract_body_list]
  split <;> simp_all

theorem ebl_skip {p : Payload} (hs : bodyStep p = .skip)
    (d : String → String) (rest : List Payload) (t h : String) :
    extract_body_list d (p :: rest) t h = extract_body_list d rest t h := by
  rw [extract_body_list]
  split <;> simp_all

theorem bodyStep_setPlain_iff {p : Payload} {s : String} :
    bodyStep p = .setPlain s ↔ directPlainData p = some s := by
  obtain ⟨mt, fn, hd, b, sub⟩ := p
  simp only [bodyStep, directPlainData]
  rcases hb : bodyData b with _ | s0 <;> simp only [hb]
  · rcases sub with _ | ps <;> simp
  · by_cases h1 : mt = "text/plain"
    · simp [h1]
    · by_cases h2 : mt = "text/html"
      · simp [h1, h2]
      · rcases sub with _ | ps <;> simp [h1, h2]

theorem bodyStep_setHtml_iff {p : Payload} {s : String} :
    bodyStep p = .setHtml s ↔ directHtmlData p = some s := by
  obtain ⟨mt, fn, hd, b, sub⟩ := p
  simp only [bodyStep, directHtmlData]
  rcases hb : bodyData b with _ | s0 <;> simp only [hb]
  · rcases sub with _ | ps <;> simp
  · by_cases h1 : mt = "text/plain"
    · simp [h1]
    · by_cases h2 : mt = "text/html"
      · simp [h1, h2]
      · rcases sub with _ | ps <;> simp [h1, h2]

theorem directPlainData_none_of_not_setPlain {p : Payload}
    (h : ∀ s, bodyStep p ≠ .setPlain s) : directPlainData p = none := by
  rcases hdp : directPlainData p with _ | s0
  · rfl
  · exact absurd (bodyStep_setPlain_iff.mpr hdp) (h s0)

theorem directHtmlData_none_of_not_setHtml {p : Payload}
    (h : ∀ s, bodyStep p ≠ .setHtml s) : directHtmlData p = none := by
  rcases hdp : directHtmlData p with _ | s0
  · rfl
  · exact absurd (bodyStep_setHtml_iff.mpr hdp) (h s0)

theorem extract_body_list_fst_const (d : String → String) :
    ∀ (ps : List Payload) (t h : String),
      ps.filterMap directPlainData = [] → t ≠ "" →
      (extract_body_list d ps t h).1 = t := by
  intro ps
  induction ps with
  | nil => intro t h _ _; rw [ebl_nil]
  | cons p rest ih =>
    intro t h hfm ht
    rcases hstep : bodyStep p with s | s | ps' | _
    · rw [List.filterMap_cons_some (bodyStep_setPlain_iff.mp hstep)] at hfm
      exact absurd hfm (by simp)
    · have hdp := directPlainData_none_of_not_setPlain
        (fun s0 hc => by rw [hstep] at hc; cases hc)
      rw [List.filterMap_cons_none hdp] at hfm
      rw [ebl_setHtml hstep]
      exact ih t _ hfm ht
    · have hdp := directPlainData_none_of_not_setPlain
        (fun s0 hc => by rw [hstep] at hc; cases hc)
      rw [List.filterMap_cons_none hdp] at hfm
      rw [ebl_recurse hstep, if_neg (by simp [ht])]
      exact ih _ _ hfm ht
    · have hdp := directPlainData_none_of_not_setPlain
        (fun s0 hc => by rw [hstep] at hc; cases hc)
      rw [List.filterMap_cons_none hdp] at hfm
      rw [ebl_skip hstep]
      exact ih t h hfm ht

theorem extract_body_list_snd_const (d : String → String) :
    ∀ (ps : List Payload) (t h : String),
      ps.filterMap directHtmlData = [] → h ≠ "" →
      (extract_body_list d ps t h).2 = h := by
  intro ps
  induction ps with
  | nil => intro t h _ _; rw [ebl_nil]
  | cons p rest ih =>
    intro t h hfm hh
    rcases hstep : bodyStep p with s | s | ps' | _
    · have hdp := directHtmlData_none_of_not_setHtml
        (fun s0 hc => by rw [hstep] at hc; cases hc)
      rw [List.filterMap_cons_none hdp] at hfm
      rw [ebl_setPlain hstep]
      exact ih _ h hfm hh
    · rw [List.filterMap_cons_some (bodyStep_setHtml_iff.mp hstep)] at hfm
      exact absurd hfm (by simp)
    · have hdp := directHtmlData_none_of_not_setHtml
        (fun s0 hc => by rw [hstep] at hc; cases hc)
      rw [List.filterMap_cons_none hdp] at hfm
      rw [ebl_recurse hstep]
      have hsnd : (if (extract_body_list d ps' "" "").2 ≠ "" ∧ h = ""
          then (extract_body_list d ps' "" "").2 else h) = h := by
        rw [if_neg (by simp [hh])]
      rw [hsnd]
      exact ih _ _ hfm hh
    · have hdp := directHtmlData_none_of_not_setHtml
        (fun s0 hc => by rw [hstep] at hc; cases hc)
      rw [List.filterMap_cons_none hdp] at hfm
      rw [ebl_skip hstep]
      exact ih t h hfm hh

theorem extract_body_list_fst_last (d : String → String) :
    ∀ (ps : List Payload) (t h x : String),
      (ps.filterMap directPlainData).getLast? = some x →
      (∀ s ∈ ps.filterMap directPlainData, d s ≠ "") →
      (extract_body_list d ps t h).1 = d x := by
  intro ps
  induction ps with
  | nil => intro t h x hx _; exact absurd hx (by simp)
  | cons p rest ih =>
    intro t h x hx hall
    rcases hstep : bodyStep p with s | s | ps' | _
    · have hdp := bodyStep_setPlain_iff.mp hstep
      rw [List.filterMap_cons_some hdp] at hx hall
      rw [ebl_setPlain hstep]
      rcases hrest : rest.filterMap directPlainData with _ | ⟨y, ys⟩
      · rw [hrest] at hx
        have hxs : s = x := by simpa using hx
        rw [← hxs]
        exact extract_body_list_fst_const d rest (d s) h hrest
          (hall s (by simp))
      · rw [hrest, List.getLast?_cons_cons, ← hrest] at hx
        exact ih (d s) h x hx (fun s1 hs1 => hall s1 (List.mem_cons_of_mem _ hs1))
    · have hdp := directPlainData_none_of_not_setPlain
        (fun s0 hc => by rw [hstep] at hc; cases hc)
      rw [List.filterMap_cons_none hdp] at hx hall
      rw [ebl_setHtml hstep]
      exact ih t _ x hx hall
    · have hdp := directPlainData_none_of_not_setPlain
        (fun s0 hc => by rw [hstep] at hc; cases hc)
      rw [List.filterMap_cons_none hdp] at hx hall
      rw [ebl_recurse hstep]
      exact ih _ _ x hx hall
    · have hdp := directPlainData_none_of_not_setPlain
        (fun s0 hc => by rw [hstep] at hc; cases hc)
      rw [List.filterMap_cons_none hdp] at hx hall
      rw [ebl_skip hstep]
      exact ih t h x hx hall

theorem extract_body_list_snd_last (d : String → String) :
    ∀ (ps : List Payload) (t h x : String),
      (ps.filterMap directHtmlData).getLast? = some x →
      (∀ s ∈ ps.filterMap directHtmlData, d s ≠ "") →
      (extract_body_list d ps t h).2 = d x := by
  intro ps
  induction ps with
  | nil => intro t h x hx _; exact absurd hx (by simp)
  | cons p rest ih =>
    intro t h x hx hall
    rcases hstep : bodyStep p with s | s | ps' | _
    · have hdp := directHtmlData_none_of_not_setHtml
        (fun s0 hc => by rw [hstep] at hc; cases hc)
      rw [List.filterMap_cons_none hdp] at hx hall
      rw [ebl_setPlain hstep]
      exact ih _ h x hx hall
    · have hdp := bodyStep_setHtml_iff.mp hstep
      rw [List.filterMap_cons_some hdp] at hx hall
      rw [ebl_setHtml hstep]
      rcases hrest : rest.filterMap directHtmlData with _ | ⟨y, ys⟩
      · rw [hrest] at hx
        have hxs : s = x := by simpa using hx
        rw [← hxs]
        exact extract_body_list_snd_const d rest t (d s) hrest
          (hall s (by simp))
      · rw [hrest, List.getLast?_cons_cons, ← hrest] at hx
        exact ih t (d s) x hx (fun s1 hs1 => hall s1 (List.mem_cons_of_mem _ hs1))
    · have hdp := directHtmlData_none_of_not_setHtml
        (fun s0 hc => by rw [hstep] at hc; cases hc)
      rw [List.filterMap_cons_none hdp] at hx hall
      rw [ebl_recurse hstep]
      exact ih _ _ x hx hall
    · have hdp := directHtmlData_none_of_not_setHtml
        (fun s0 hc => by rw [hstep] at hc; cases hc)
      rw [List.filterMap_cons_none hdp] at hx hall
      rw [ebl_skip hstep]
      exact ih t h x hx hall

namespace EmailStorage

theorem store_thread_emails (db : DB) (tid s sn : String) :
    (store_thread db tid s sn).1.emails = db.emails := by
  unfold store_thread; split <;> rfl

theorem store_thread_nextEmailId (db : DB) (tid s sn : String) :
    (store_thread db tid s sn).1.nextEmailId = db.nextEmailId := by
  unfold store_thread; split <;> rfl

theorem store_user_emails (db : DB) (e n : String) :
    (store_user db e n).1.emails = db.emails := by
  unfold store_user
  split
  · rfl
  · split <;> rfl

theorem store_user_nextEmailId (db : DB) (e n : String) :
    (store_user db e n).1.nextEmailId = db.nextEmailId := by
  unfold store_user
  split
  · rfl
  · split <;> rfl

theorem store_user_empty (db : DB) (n : String) :
    store_user db "" n = (db, none) := by
  unfold store_user; simp

theorem store_recipient_chunk_emails (eid : Nat) (ty : String) (db : DB) (c : String) :
    (store_recipient_chunk eid ty db c).emails = db.emails := by
  simp only [store_recipient_chunk]
  split
  · split
    · simpa using store_user_emails db _ _
    · simpa using store_user_emails db _ _
  · rfl

theorem store_recipient_chunk_nextEmailId (eid : Nat) (ty : String) (db : DB) (c : String) :
    (store_recipient_chunk eid ty db c).nextEmailId = db.nextEmailId := by
  simp only [store_recipient_chunk]
  split
  · split
    · simpa using store_user_nextEmailId db _ _
    · simpa using store_user_nextEmailId db _ _
  · rfl

theorem store_recipients_emails (db : DB) (eid : Nat) (s ty : String) :
    (store_recipients db eid s ty).emails = db.emails := by
  unfold store_recipients
  split
  · rfl
  · exact foldl_preserves _ DB.emails (fun b a => store_recipient_chunk_emails eid ty b a) _ db

theorem store_attachment_emails (db : DB) (eid : Nat) (a : AttachmentData) :
    (store_attachment db eid a).emails = db.emails := rfl

theorem store_label_emails (db : DB) (eid : Nat) (l : String) :
    (store_label db eid l).emails = db.emails := by
  simp only [store_label]
  split <;> split <;> rfl

theorem foldl_store_attachment_emails (l : List AttachmentData) (eid : Nat) (db : DB) :
    (l.foldl (fun acc a => store_attachment acc eid a) db).emails = db.emails :=
  foldl_preserves _ DB.emails (fun b a => store_attachment_emails b eid a) l db

theorem foldl_store_label_emails (l : List String) (eid : Nat) (db : DB) :
    (l.foldl (fun acc s => store_label acc eid s) db).emails = db.emails :=
  foldl_preserves _ DB.emails (fun b a => store_label_emails b eid a) l db

theorem fresh_row_message_id (db : DB) (ed : EmailData) (env : Env) :
    (fresh_row db ed env).message_id = ed.id := rfl

theorem fresh_row_id (db : DB) (ed : EmailData) (env : Env) :
    (fresh_row db ed env).id = db.nextEmailId := by
  simp only [fresh_row]
  rw [store_user_nextEmailId, store_thread_nextEmailId]

theorem fresh_row_flags (db : DB) (ed : EmailData) (env : Env) :
    (fresh_row db ed env).is_read = !(ed.labelIds.contains "UNREAD") ∧
    (fresh_row db ed env).is_archived = !(ed.labelIds.contains "INBOX") ∧
    (fresh_row db ed env).is_deleted = ed.labelIds.contains "TRASH" :=
  ⟨rfl, rfl, rfl⟩

theorem fresh_row_sender_none (db : DB) (ed : EmailData) (env : Env)
    (h : (parse_email_address (headerValue ed.headersOf "from" "")).2 = "") :
    (fresh_row db ed env).sender_id = none := by
  simp only [fresh_row, h, store_user_empty]

theorem ingest_new_emails (db : DB) (ed : EmailData) (env : Env) :
    (ingest_new db ed env).1.emails = db.emails ++ [fresh_row db ed env] := by
  simp only [ingest_new]
  rw [foldl_store_label_emails, foldl_store_attachment_emails]
  split
  · rw [store_recipients_emails, store_recipients_emails]
    simp [store_user_emails, store_thread_emails]
  · rw [store_recipients_emails]
    simp [store_user_emails, store_thread_emails]

theorem ingest_new_id (db : DB) (ed : EmailData) (env : Env)
    (h : db.emails.find? (fun e => e.message_id = ed.id) = none) :
    (ingest_new db ed env).2 = (fresh_row db ed env).id := by
  simp only [ingest_new]
  have hemails :
      (store_user (store_thread db ed.threadId
          (headerValue ed.headersOf "subject" "No Subject") ed.snippet).1
        (parse_email_address (headerValue ed.headersOf "from" "")).2
        (parse_email_address (headerValue ed.headersOf "from" "")).1).1.emails
        = db.emails := by
    rw [store_user_emails, store_thread_emails]
  rw [hemails, find?_append_of_none h]
  have hrow : (List.find? (fun e => e.message_id = ed.id) [fresh_row db ed env])
      = some (fresh_row db ed env) := by
    apply List.find?_cons_of_pos
    simp [fresh_row_message_id]
  rw [hrow]
  rfl

theorem splitFirst_append_cons {c : Char} {l1 : List Char} (l2 : List Char)
    (h : c ∉ l1) : splitFirst c (l1 ++ c :: l2) = some (l1, l2) := by
  induction l1 with
  | nil => simp [splitFirst]
  | cons a l ih =>
    have ha : a ≠ c := by
      intro hac
      exact h (by simp [hac])
    have hl : c ∉ l := fun hm => h (List.mem_cons_of_mem a hm)
    simp [splitFirst, ha, ih hl]

theorem splitFirst_eq_none {c : Char} {l : List Char} (h : c ∉ l) :
    splitFirst c l = none := by
  induction l with
  | nil => rfl
  | cons a l ih =>
    have ha : a ≠ c := by
      intro hac
      exact h (by simp [hac])
    have hl : c ∉ l := fun hm => h (List.mem_cons_of_mem a hm)
    simp [splitFirst, ha, ih hl]

theorem store_user_email_nonempty (db : DB) (e n : String)
    (hdb : ∀ u ∈ db.users, u.email ≠ "") :
    ∀ u ∈ (store_user db e n).1.users, u.email ≠ "" := by
  unfold store_user
  split
  · exact hdb
  · split
    · exact hdb
    · intro u hu
      simp only [List.mem_append, List.mem_singleton] at hu
      rcases hu with hu | hu
      · exact hdb u hu
      · rw [hu]
        simpa using (by assumption : ¬ e = "")

theorem store_recipient_chunk_users_nonempty (eid : Nat) (ty : String)
    (db : DB) (c : String) (hdb : ∀ u ∈ db.users, u.email ≠ "") :
    ∀ u ∈ (store_recipient_chunk eid ty db c).users, u.email ≠ "" := by
  simp only [store_recipient_chunk]
  split
  · rcases hsu : (store_user db (parse_email_address (trimStr c)).2
        (parse_email_address (trimStr c)).1).2 with _ | uid
    · simp only [hsu]
      exact store_user_email_nonempty db _ _ hdb
    · simp only [hsu]
      intro u hu
      exact store_user_email_nonempty db _ _ hdb u (by simpa using hu)
  · exact hdb

theorem get_email_by_id_id (db : DB) (i : Nat) (rec : EmailRecord)
    (h : get_email_by_id db i = some rec) : rec.id = i := by
  unfold get_email_by_id at h
  rcases hf : db.emails.find? (fun e => e.id = i) with _ | e
  · simp [hf] at h
  · simp only [hf] at h
    have hei : e.id = i := by
      have := List.find?_some hf
      simpa using this
    rcases hs : e.sender_id with _ | sid
    · simp [hs] at h
    · simp only [hs] at h
      rcases hu : db.users.find? (fun u => u.id = sid) with _ | u
      · simp [hu] at h
      · simp only [hu] at h
        rcases ht : db.threads.find? (fun t => t.id = e.thread_id) with _ | t
        · simp [ht] at h
        · simp only [ht] at h
          have hrec := Option.some_inj.mp h
          rw [← hrec]
          simpa using hei

theorem store_email_of_find_none (db : DB) (ed : EmailData) (env : Env)
    (h : db.emails.find? (fun e => e.message_id = ed.id) = none) :
    store_email db ed env = ingest_new db ed env := by
  simp only [store_email, h]

end EmailStorage

theorem fitDimension_length (dim : Nat) (v : List ℤ) :
    (fitDimension dim v).length = dim := by
  unfold fitDimension
  split
  · assumption
  · split
    · rw [List.length_take]
      omega
    · rw [List.length_append, List.length_replicate]
      omega

theorem normalizeEmb_length (env : Env) (v : List ℤ) :
    (normalizeEmb env v).length = v.length := by
  unfold normalizeEmb
  split
  · rw [List.length_map]
  · rfl

theorem add_email_success_eq (vs : VectorStore) (env : Env) (eid : Nat)
    (emb : List ℤ) (md : List (String × String)) (hne : emb ≠ [])
    (hlen : (normalizeEmb env (fitDimension vs.dimension emb)).length
      = vs.index.d) :
    VectorStore.add_email vs env Faults.none eid emb md =
      ({ vs with
          index := ⟨vs.index.d,
            vs.index.vecs ++ [normalizeEmb env (fitDimension vs.dimension emb)]⟩
          emails := assocUpsert vs.emails vs.index.vecs.length ⟨eid, md⟩ },
        some vs.index.vecs.length,
        [FileOp.writeTemp FileName.indexFile, FileOp.writeTemp FileName.metadataFile,
         FileOp.rename FileName.indexFile, FileOp.rename FileName.metadataFile]) := by
  unfold VectorStore.add_email
  simp only [if_neg hne, Faults.none]
  unfold faissAdd
  simp only [if_pos hlen]
  rfl

theorem emaildb_existing (st : SysState) (ed : EmailData) (env : Env)
    (fl : Faults) (rec : EmailStorage.EmailRecord)
    (h : EmailStorage.get_email_by_message_id st.db ed.id = some rec) :
    EmailDB.store_email st ed env fl = (st, rec.id) := by
  unfold EmailDB.store_email
  simp only [h]

theorem emaildb_fresh_components (st : SysState) (ed : EmailData) (env : Env)
    (fl : Faults)
    (h : EmailStorage.get_email_by_message_id st.db ed.id = none) :
    (EmailDB.store_email st ed env fl).1.db
      = (EmailStorage.store_email st.db ed env).1 ∧
    (EmailDB.store_email st ed env fl).2
      = (EmailStorage.store_email st.db ed env).2 := by
  unfold EmailDB.store_email
  simp only [h]
  rcases hge : EmailStorage.get_email_by_id
      (EmailStorage.store_email st.db ed env).1
      (EmailStorage.store_email st.db ed env).2 with _ | stored
  · simp [hge]
  · simp only [hge]
    split
    · simp
    · simp

/-! ## Claims -/

open EmailStorage

/-- C10: the stored boolean flags of a freshly ingested payload are derived
solely from its labelIds list: is_read iff UNREAD is absent, is_archived iff
INBOX is absent, is_deleted iff TRASH is present. -/
theorem store_email_flags_from_labels (db : DB) (ed : EmailData) (env : Env)
    (hfresh : db.emails.find? (fun e => e.message_id = ed.id) = none) :
    ∃ row : EmailRow,
      (store_email db ed env).1.emails = db.emails ++ [row] ∧
      row.message_id = ed.id ∧
      (row.is_read = true ↔ ed.labelIds.contains "UNREAD" = false) ∧
      (row.is_archived = true ↔ ed.labelIds.contains "INBOX" = false) ∧
      (row.is_deleted = true ↔ ed.labelIds.contains "TRASH" = true) := by
  refine ⟨fresh_row db ed env, ?_, fresh_row_message_id db ed env, ?_, ?_, ?_⟩
  · rw [store_email_of_find_none db ed env hfresh, ingest_new_emails]
  · rw [(fresh_row_flags db ed env).1]
    simp
  · rw [(fresh_row_flags db ed env).2.1]
    simp
  · rw [(fresh_row_flags db ed env).2.2]

/-- Witness for C10 at a concrete fresh payload carrying labels UNREAD and
TRASH. -/
theorem store_email_flags_from_labels_witness :
    DB.empty.emails.find? (fun e => e.message_id = edW.id) = none ∧
    ∃ row : EmailRow,
      (store_email DB.empty edW envW).1.emails = DB.empty.emails ++ [row] ∧
      row.message_id = edW.id ∧
      (row.is_read = true ↔ edW.labelIds.contains "UNREAD" = false) ∧
      (row.is_archived = true ↔ edW.labelIds.contains "INBOX" = false) ∧
      (row.is_deleted = true ↔ edW.labelIds.contains "TRASH" = true) :=
  ⟨by decide, store_email_flags_from_labels DB.empty edW envW (by decide)⟩

/-- C9: a payload with no parseable From address is stored with a NULL
sender id and its database id is returned, but hydration by id — and hence
by provider message id — returns nothing, because the read query
inner-joins the users table on the sender id. -/
theorem store_email_null_sender_unretrievable (db : DB) (ed : EmailData) (env : Env)
    (hwf : ∀ e ∈ db.emails, e.id < db.nextEmailId)
    (hfresh : db.emails.find? (fun e => e.message_id = ed.id) = none)
    (hsender : (parse_email_address (headerValue ed.headersOf "from" "")).2 = "") :
    ∃ row : EmailRow,
      (store_email db ed env).1.emails = db.emails ++ [row] ∧
      row.message_id = ed.id ∧
      row.sender_id = none ∧
      (store_email db ed env).2 = row.id ∧
      get_email_by_id (store_email db ed env).1 row.id = none ∧
      get_email_by_message_id (store_email db ed env).1 ed.id = none := by
  rw [store_email_of_find_none db ed env hfresh]
  have hrow := fresh_row_sender_none db ed env hsender
  have hemails := ingest_new_emails db ed env
  have hfindid : (ingest_new db ed env).1.emails.find?
      (fun e => e.id = (fresh_row db ed env).id) = some (fresh_row db ed env) := by
    rw [hemails]
    rw [find?_append_of_none]
    · exact List.find?_cons_of_pos _ (by simp)
    · rw [List.find?_eq_none]
      intro e he
      have := hwf e he
      rw [fresh_row_id]
      simp only [decide_eq_true_eq]
      omega
  have hbyid : get_email_by_id (ingest_new db ed env).1 (fresh_row db ed env).id = none := by
    unfold get_email_by_id
    rw [hfindid]
    simp only [hrow]
  refine ⟨fresh_row db ed env, hemails, fresh_row_message_id db ed env, hrow,
    ingest_new_id db ed env hfresh, hbyid, ?_⟩
  unfold get_email_by_message_id
  have hfindmsg : (ingest_new db ed env).1.emails.find?
      (fun e => e.message_id = ed.id) = some (fresh_row db ed env) := by
    rw [hemails, find?_append_of_none hfresh]
    exact List.find?_cons_of_pos _ (by simp [fresh_row_message_id])
  rw [hfindmsg]
  exact hbyid

/-- C8 counterexample: the claim that malformed input parses to a pair of
empty strings fails on the unclosed-bracket string, which is neither of the
shape name-bracket-address nor a bare address, yet parses to the non-empty
pair (empty name, whole stripped string). -/
theorem parse_email_address_malformed_cex :
    parse_email_address "John <john@x" = ("", "John <john@x") ∧
    parse_email_address "John <john@x" ≠ ("", "") := by
  constructor
  · rfl
  · decide

/-- C8 amended: a string with a first open angle bracket matched by a later
close bracket splits into (trimmed name, trimmed address); empty input
yields a pair of empty strings; every other non-empty string — i.e. every
string the regex does not match, malformed unclosed-bracket ones included —
is treated as a bare address (empty name, stripped string); a chunk whose
parsed address is empty is a no-op for recipient storage, and recipient
storage never creates a user row with an empty address. -/
theorem parse_email_address_amended :
    (∀ name addr tail : String, '<' ∉ name.data → '>' ∉ addr.data →
      parse_email_address (name ++ "<" ++ addr ++ ">" ++ tail)
        = (trimStr name, trimStr addr)) ∧
    parse_email_address "" = ("", "") ∧
    (∀ s : String, s ≠ "" → angleMatches s = false →
      parse_email_address s = ("", trimStr s)) ∧
    (∀ (db : DB) (eid : Nat) (chunk ty : String),
      (parse_email_address (trimStr chunk)).2 = "" →
      store_recipient_chunk eid ty db chunk = db) ∧
    (∀ (db : DB) (eid : Nat) (s ty : String),
      (∀ u ∈ db.users, u.email ≠ "") →
      ∀ u ∈ (store_recipients db eid s ty).users, u.email ≠ "") := by
  refine ⟨?_, rfl, ?_, ?_, ?_⟩
  · intro name addr tail hname haddr
    have hdata : (name ++ "<" ++ addr ++ ">" ++ tail).data
        = name.data ++ '<' :: (addr.data ++ '>' :: tail.data) := by
      simp [String.data_append]
    have hne : name ++ "<" ++ addr ++ ">" ++ tail ≠ "" := by
      intro hcon
      rw [hcon] at hdata
      simp at hdata
    unfold parse_email_address
    rw [if_neg hne]
    simp only [hdata, splitFirst_append_cons _ hname,
      splitFirst_append_cons _ haddr]
  · intro s hs hnm
    unfold angleMatches at hnm
    unfold parse_email_address
    rw [if_neg hs]
    rcases hsp : splitFirst '<' s.data with _ | ⟨before, rest⟩
    · simp only [hsp]
    · simp only [hsp] at hnm
      rcases hsp2 : splitFirst '>' rest with _ | pr
      · simp only [hsp, hsp2]
      · rw [hsp2] at hnm
        simp at hnm
  · intro db eid chunk ty hp
    simp only [store_recipient_chunk, hp]
    simp
  · intro db eid s ty hdb
    unfold store_recipients
    split
    · exact hdb
    · induction splitOnCommaStr s generalizing db with
      | nil => exact hdb
      | cons c cs ih =>
        rw [List.foldl_cons]
        exact ih _ (store_recipient_chunk_users_nonempty eid ty db c hdb)

/-- C6 counterexample: a payload whose parts are two sibling text/plain
leaves with data A then B.  The first text/plain part encountered carries A,
yet extraction returns B: a later direct text/plain sibling overwrites an
earlier one. -/
theorem extract_body_first_plain_cex :
    twoPlainPayload.parts = some [plainLeaf "A", plainLeaf "B"] ∧
    directPlainData (plainLeaf "A") = some "A" ∧
    extract_body (fun s => s) twoPlainPayload = ("B", "") ∧
    (("B", "") : String × String) ≠ ("A", "") := by
  refine ⟨rfl, rfl, ?_, by decide⟩
  show extract_body (fun s => s) twoPlainPayload = ("B", "")
  have h1 : bodyStep (plainLeaf "A") = .setPlain "A" := rfl
  have h2 : bodyStep (plainLeaf "B") = .setPlain "B" := rfl
  simp only [extract_body, twoPlainPayload]
  rw [ebl_setPlain h1, ebl_setPlain h2, ebl_nil]

/-- C6 amended: within a `parts` list, the extracted plain-text (resp. HTML)
body is the decoded data of the LAST direct text/plain (resp. text/html)
leaf among the immediate children (provided those decode non-empty); results
recursed out of nested multiparts are adopted only while the corresponding
body is still empty, so they never override a direct leaf. -/
theorem extract_body_last_direct_leaf :
    (∀ (d : String → String) (p : Payload) (ps : List Payload) (x : String),
      p.parts = some ps →
      (ps.filterMap directPlainData).getLast? = some x →
      (∀ s ∈ ps.filterMap directPlainData, d s ≠ "") →
      (extract_body d p).1 = d x) ∧
    (∀ (d : String → String) (p : Payload) (ps : List Payload) (x : String),
      p.parts = some ps →
      (ps.filterMap directHtmlData).getLast? = some x →
      (∀ s ∈ ps.filterMap directHtmlData, d s ≠ "") →
      (extract_body d p).2 = d x) := by
  constructor
  · intro d p ps x hp hx hall
    obtain ⟨mt, fn, hd, b, sub⟩ := p
    simp only [Payload.parts] at hp
    subst hp
    simp only [extract_body]
    exact extract_body_list_fst_last d ps "" "" x hx hall
  · intro d p ps x hp hx hall
    obtain ⟨mt, fn, hd, b, sub⟩ := p
    simp only [Payload.parts] at hp
    subst hp
    simp only [extract_body]
    exact extract_body_list_snd_last d ps "" "" x hx hall

/-- Witness for C6 amended at the two-sibling payload: the last direct
text/plain leaf (data B) wins. -/
theorem extract_body_last_direct_leaf_witness :
    (([plainLeaf "A", plainLeaf "B"].filterMap directPlainData).getLast?
        = some "B") ∧
    (extract_body (fun s => s) twoPlainPayload).1 = (fun s => s) "B" :=
  ⟨by decide,
    extract_body_last_direct_leaf.1 (fun s => s) twoPlainPayload
      [plainLeaf "A", plainLeaf "B"] "B" rfl (by decide) (by decide)⟩

/-- Witness for C8 amended, at a well-formed address, a bare address, a
malformed unclosed-bracket string, and a whitespace-only recipient chunk. -/
theorem parse_email_address_amended_witness :
    parse_email_address ("Jo" ++ "<" ++ "j@x" ++ ">" ++ "")
      = (trimStr "Jo", trimStr "j@x") ∧
    parse_email_address "bare@x" = ("", trimStr "bare@x") ∧
    parse_email_address "John <john@x" = ("", trimStr "John <john@x") ∧
    store_recipient_chunk 1 "to" DB.empty "  " = DB.empty :=
  ⟨parse_email_address_amended.1 "Jo" "j@x" "" (by decide) (by decide),
   parse_email_address_amended.2.2.1 "bare@x" (by decide) (by decide),
   parse_email_address_amended.2.2.1 "John <john@x" (by decide) (by decide),
   parse_email_address_amended.2.2.2.1 DB.empty 1 "  " "to" (by decide)⟩

/-- Witness for C9: the concrete From-less payload on the empty database is
stored but cannot be read back. -/
theorem store_email_null_sender_unretrievable_witness :
    (∀ e ∈ DB.empty.emails, e.id < DB.empty.nextEmailId) ∧
    DB.empty.emails.find? (fun e => e.message_id = edNoFrom.id) = none ∧
    (parse_email_address (headerValue edNoFrom.headersOf "from" "")).2 = "" ∧
    ∃ row : EmailRow,
      (store_email DB.empty edNoFrom envW).1.emails = DB.empty.emails ++ [row] ∧
      row.message_id = edNoFrom.id ∧
      row.sender_id = none ∧
      (store_email DB.empty edNoFrom envW).2 = row.id ∧
      get_email_by_id (store_email DB.empty edNoFrom envW).1 row.id = none ∧
      get_email_by_message_id (store_email DB.empty edNoFrom envW).1 edNoFrom.id = none :=
  ⟨by decide, by decide, by decide,
    store_email_null_sender_unretrievable DB.empty edNoFrom envW
      (by decide) (by decide) (by decide)⟩

/-- C4: after delete_email(m), no search on the resulting store returns m;
the raw index size is unchanged by the deletion; and the returned count is
the number of metadata entries that matched m. -/
theorem delete_email_soft_delete (vs : VectorStore) (m : Nat) :
    (∀ (q : List ℤ) (k em : Nat) (sc : ℤ),
      (em, sc) ∈ VectorStore.search (VectorStore.delete_email vs m).1 q k →
      em ≠ m) ∧
    (VectorStore.delete_email vs m).1.index.vecs.length
      = vs.index.vecs.length ∧
    (VectorStore.delete_email vs m).2.1
      = (vs.emails.filter (fun p => p.2.email_id = m)).length := by
  refine ⟨?_, rfl, rfl⟩
  intro q k em sc hmem
  unfold VectorStore.search at hmem
  rcases hfs : faissSearch (VectorStore.delete_email vs m).1.index q k with _ | hits
  · rw [hfs] at hmem
    simp at hmem
  · rw [hfs] at hmem
    obtain ⟨p, hp, hf⟩ := List.mem_filterMap.mp hmem
    by_cases hneg : p.1 ≠ -1
    · rw [if_pos hneg] at hf
      rcases hfind : (VectorStore.delete_email vs m).1.emails.find?
          (fun mm => (mm.1 : Int) = p.1) with _ | mm
      · rw [hfind] at hf
        exact absurd hf (by simp)
      · rw [hfind] at hf
        have hmm := List.mem_of_find?_eq_some hfind
        have hmmne : mm.2.email_id ≠ m := by
          have hmem2 : mm ∈ vs.emails.filter (fun pr => pr.2.email_id ≠ m) := hmm
          simpa using (List.mem_filter.mp hmem2).2
        have hem : em = mm.2.email_id := by
          have hpair := Option.some_inj.mp hf
          have h1 := congrArg Prod.fst hpair
          simpa using h1.symm
        rw [hem]
        exact hmmne
    · rw [if_neg hneg] at hf
      exact absurd hf (by simp)

set_option maxRecDepth 40000 in
/-- Witness for C4: deleting email 7 from the two-entry store leaves search
returning only email 8, which is indeed different from 7. -/
theorem delete_email_soft_delete_witness :
    ((8, (0 : ℤ)) ∈ VectorStore.search (VectorStore.delete_email vsTwo 7).1 vzero 2) ∧
    (8 : Nat) ≠ 7 :=
  ⟨by decide, (delete_email_soft_delete vsTwo 7).1 vzero 2 8 0 (by decide)⟩

/-- C5 counterexample: the metadata persistence performed by delete_email is
a direct in-place rewrite of the primary metadata file — the whole trace is
one write-in-place, which is neither a temp-file write nor a rename,
refuting the claim that every mutation of the index uses the
write-to-temp-then-atomic-rename protocol. -/
theorem delete_email_persistence_cex :
    (VectorStore.delete_email vsOne 7).2.2
      = [FileOp.writeInPlace FileName.metadataFile] ∧
    (∀ f : FileName,
      FileOp.writeInPlace FileName.metadataFile ≠ FileOp.writeTemp f ∧
      FileOp.writeInPlace FileName.metadataFile ≠ FileOp.rename f) := by
  refine ⟨rfl, ?_⟩
  intro f
  exact ⟨by simp, by simp⟩

/-- C5 amended: a successful add_email persists both files with the
write-to-temp-then-atomic-rename protocol, but delete_email rewrites only
the metadata file, in place, and never touches the index file. -/
theorem vector_persistence_protocol :
    (∀ (vs : VectorStore) (env : Env) (eid : Nat) (emb : List ℤ)
        (md : List (String × String)),
      emb ≠ [] →
      (normalizeEmb env (fitDimension vs.dimension emb)).length = vs.index.d →
      (VectorStore.add_email vs env Faults.none eid emb md).2.2 =
        [FileOp.writeTemp FileName.indexFile, FileOp.writeTemp FileName.metadataFile,
         FileOp.rename FileName.indexFile, FileOp.rename FileName.metadataFile]) ∧
    (∀ (vs : VectorStore) (m : Nat),
      (VectorStore.delete_email vs m).2.2
        = [FileOp.writeInPlace FileName.metadataFile]) := by
  constructor
  · intro vs env eid emb md hne hlen
    rw [add_email_success_eq vs env eid emb md hne hlen]
  · intro vs m
    rfl

set_option maxRecDepth 40000 in
/-- Witness for C5 amended: the concrete insertion emits the atomic
protocol trace. -/
theorem vector_persistence_protocol_witness :
    (([1, 2] : List ℤ) ≠ [] ∧
      (normalizeEmb envW (fitDimension vsOne.dimension [1, 2])).length
        = vsOne.index.d) ∧
    (VectorStore.add_email vsOne envW Faults.none 9 [1, 2] []).2.2 =
      [FileOp.writeTemp FileName.indexFile, FileOp.writeTemp FileName.metadataFile,
       FileOp.rename FileName.indexFile, FileOp.rename FileName.metadataFile] :=
  ⟨⟨by decide, by decide⟩,
    vector_persistence_protocol.1 vsOne envW 9 [1, 2] [] (by decide) (by decide)⟩

set_option maxRecDepth 40000 in
/-- C3 counterexample: search does not pad or truncate the query.  A
1-dimensional query against the 384-dimensional store returns the empty
list (the FAISS dimension assertion is caught), whereas the same query
pad-normalised to 384 dimensions returns email 7 — the call fails to return
results consistent with the pad/truncate normalisation and returns nothing
instead. -/
theorem search_no_query_normalization_cex :
    VectorStore.search vsOne [1] 1 = [] ∧
    VectorStore.search vsOne (fitDimension 384 [1]) 1 = [(7, 1)] ∧
    ([] : List (Nat × ℤ)) ≠ [(7, 1)] := by
  refine ⟨by decide, by decide, by decide⟩

/-- C3 amended: add_email always stores a vector of exactly the configured
dimension 384, truncating longer and zero-padding shorter finite non-empty
inputs, never rejecting on dimension mismatch; search, however, performs no
such normalisation — a query whose length differs from the index dimension
makes the caught FAISS assertion yield the empty result list. -/
theorem add_email_dimension_invariance (vs : VectorStore) (env : Env)
    (eid : Nat) (emb : List ℤ) (md : List (String × String))
    (hdim : vs.dimension = 384) (hixd : vs.index.d = 384) (hne : emb ≠ []) :
    (∃ w : List ℤ,
      (VectorStore.add_email vs env Faults.none eid emb md).1.index.vecs
        = vs.index.vecs ++ [w] ∧
      w.length = 384 ∧
      (VectorStore.add_email vs env Faults.none eid emb md).2.1
        = some vs.index.vecs.length) ∧
    (∀ (q : List ℤ) (k : Nat), q.length ≠ vs.index.d →
      VectorStore.search vs q k = []) := by
  have hlen : (normalizeEmb env (fitDimension vs.dimension emb)).length
      = vs.index.d := by
    rw [normalizeEmb_length, fitDimension_length, hdim, hixd]
  constructor
  · refine ⟨normalizeEmb env (fitDimension vs.dimension emb), ?_, ?_, ?_⟩
    · rw [add_email_success_eq vs env eid emb md hne hlen]
    · rw [normalizeEmb_length, fitDimension_length, hdim]
    · rw [add_email_success_eq vs env eid emb md hne hlen]
  · intro q k hq
    unfold VectorStore.search faissSearch
    rw [if_neg hq]

set_option maxRecDepth 40000 in
/-- Witness for C3 amended: inserting a 2-dimensional vector into the
384-dimensional store succeeds with a padded 384-long vector, and a
1-dimensional query returns the empty list. -/
theorem add_email_dimension_invariance_witness :
    (vsOne.dimension = 384 ∧ vsOne.index.d = 384 ∧ ([1, 2] : List ℤ) ≠ []) ∧
    (∃ w : List ℤ,
      (VectorStore.add_email vsOne envW Faults.none 9 [1, 2] []).1.index.vecs
        = vsOne.index.vecs ++ [w] ∧
      w.length = 384 ∧
      (VectorStore.add_email vsOne envW Faults.none 9 [1, 2] []).2.1
        = some vsOne.index.vecs.length) ∧
    (∀ (q : List ℤ) (k : Nat), q.length ≠ vsOne.index.d →
      VectorStore.search vsOne q k = []) :=
  ⟨⟨rfl, rfl, by decide⟩,
    (add_email_dimension_invariance vsOne envW 9 [1, 2] [] rfl rfl (by decide)).1,
    (add_email_dimension_invariance vsOne envW 9 [1, 2] [] rfl rfl (by decide)).2⟩

/-- C7: once the relational insertion of a fresh payload has succeeded, the
pipeline returns that relational id whatever the encoder does and whatever
faults hit the vector store (hydration misses, embedding failure, FAISS
errors, save failures are all reported by value and swallowed); and
add_email reports a non-retrainable FAISS failure by returning None rather
than raising. -/
theorem store_email_best_effort (st : SysState) (ed : EmailData) (env : Env)
    (fl : Faults)
    (h : EmailStorage.get_email_by_message_id st.db ed.id = none) :
    (EmailDB.store_email st ed env fl).2
      = (EmailStorage.store_email st.db ed env).2 ∧
    (∀ (vs : VectorStore) (env2 : Env) (eid : Nat) (emb : List ℤ)
        (md : List (String × String)) (sf : Bool),
      (VectorStore.add_email vs env2 ⟨some false, sf⟩ eid emb md).2.1 = none) := by
  refine ⟨(emaildb_fresh_components st ed env fl h).2, ?_⟩
  intro vs env2 eid emb md sf
  unfold VectorStore.add_email
  by_cases hemb : emb = []
  · simp only [if_pos hemb]
  · simp only [if_neg hemb]

/-- Witness for C7: a failing encoder plus a failing FAISS add plus a
failing save still return the relational id for the concrete payload, and
the concrete faulty insertion returns None. -/
theorem store_email_best_effort_witness :
    EmailStorage.get_email_by_message_id stEmpty.db edW.id = none ∧
    (EmailDB.store_email stEmpty edW envFail ⟨some false, true⟩).2
      = (EmailStorage.store_email stEmpty.db edW envFail).2 ∧
    (VectorStore.add_email vsOne envFail ⟨some false, true⟩ 9 [1] []).2.1 = none :=
  ⟨by decide,
    (store_email_best_effort stEmpty edW envFail ⟨some false, true⟩ (by decide)).1,
    (store_email_best_effort stEmpty edW envFail ⟨some false, true⟩ (by decide)).2
      vsOne envFail 9 [1] [] true⟩

theorem emaildb_row_exists (st : SysState) (ed : EmailData) (env : Env)
    (fl : Faults) (e : EmailRow)
    (hfind : st.db.emails.find? (fun r => r.message_id = ed.id) = some e) :
    EmailDB.store_email st ed env fl = (st, e.id) := by
  rcases hge : EmailStorage.get_email_by_message_id st.db ed.id with _ | rec
  · have hse : EmailStorage.store_email st.db ed env = (st.db, e.id) := by
      unfold EmailStorage.store_email
      simp only [hfind]
    have hgid : EmailStorage.get_email_by_id st.db e.id = none := by
      unfold EmailStorage.get_email_by_message_id at hge
      simp only [hfind] at hge
      exact hge
    unfold EmailDB.store_email
    simp only [hge, hse, hgid]
  · have h1 := emaildb_existing st ed env fl rec hge
    have hrid : rec.id = e.id := by
      unfold EmailStorage.get_email_by_message_id at hge
      simp only [hfind] at hge
      exact EmailStorage.get_email_by_id_id _ _ _ hge
    rw [h1, hrid]

/-- C1: ingesting the same provider payload twice, starting from a store
holding at most one row for its provider message id, leaves exactly one
relational row for it; the second call returns the same database id as the
first and changes nothing at all — in particular the relational tables gain
no rows and the vector index gains no vectors. -/
theorem store_email_idempotent (st : SysState) (ed : EmailData) (env : Env)
    (fl : Faults)
    (hcount : (st.db.emails.filter (fun e => e.message_id = ed.id)).length ≤ 1) :
    ((EmailDB.store_email st ed env fl).1.db.emails.filter
        (fun e => e.message_id = ed.id)).length = 1 ∧
    EmailDB.store_email (EmailDB.store_email st ed env fl).1 ed env fl
      = EmailDB.store_email st ed env fl ∧
    (EmailDB.store_email (EmailDB.store_email st ed env fl).1 ed env fl).1.vs.index.vecs.length
      = (EmailDB.store_email st ed env fl).1.vs.index.vecs.length := by
  rcases hfind : st.db.emails.find? (fun r => r.message_id = ed.id) with _ | e
  · have hgm : EmailStorage.get_email_by_message_id st.db ed.id = none := by
      unfold EmailStorage.get_email_by_message_id
      simp only [hfind]
    have hcomp := emaildb_fresh_components st ed env fl hgm
    have hse := EmailStorage.store_email_of_find_none st.db ed env hfind
    have hdb : (EmailDB.store_email st ed env fl).1.db
        = (ingest_new st.db ed env).1 := by
      rw [hcomp.1, hse]
    have hid : (EmailDB.store_email st ed env fl).2
        = (fresh_row st.db ed env).id := by
      rw [hcomp.2, hse, EmailStorage.ingest_new_id st.db ed env hfind]
    have hfind2 : (EmailDB.store_email st ed env fl).1.db.emails.find?
        (fun r => r.message_id = ed.id) = some (fresh_row st.db ed env) := by
      rw [hdb, EmailStorage.ingest_new_emails, find?_append_of_none hfind]
      exact List.find?_cons_of_pos _ (by simp [EmailStorage.fresh_row_message_id])
    have h2 := emaildb_row_exists (EmailDB.store_email st ed env fl).1 ed env fl
      _ hfind2
    refine ⟨?_, ?_, ?_⟩
    · rw [hdb, EmailStorage.ingest_new_emails, List.filter_append]
      have hf1 : st.db.emails.filter (fun e => e.message_id = ed.id) = [] := by
        rw [List.filter_eq_nil_iff]
        intro a ha
        have := List.find?_eq_none.mp hfind a ha
        simpa using this
      have hf2 : [fresh_row st.db ed env].filter
          (fun e => e.message_id = ed.id) = [fresh_row st.db ed env] := by
        simp [EmailStorage.fresh_row_message_id]
      rw [hf1, hf2]
      rfl
    · rw [h2, ← hid]
    · rw [h2]
  · have h1 := emaildb_row_exists st ed env fl e hfind
    have hcnt : 1 ≤ (st.db.emails.filter (fun r => r.message_id = ed.id)).length := by
      have hmem := List.mem_of_find?_eq_some hfind
      have hp := List.find?_some hfind
      have hmf : e ∈ st.db.emails.filter (fun r => r.message_id = ed.id) :=
        List.mem_filter.mpr ⟨hmem, hp⟩
      exact List.length_pos_of_mem hmf
    refine ⟨?_, ?_, ?_⟩
    · rw [h1]
      show (st.db.emails.filter (fun r => r.message_id = ed.id)).length = 1
      omega
    · rw [h1]
      exact h1
    · rw [h1]
      exact congrArg (fun p => p.1.vs.index.vecs.length) h1

/-- Witness for C1 at the concrete payload on the empty store. -/
theorem store_email_idempotent_witness :
    ((stEmpty.db.emails.filter (fun e => e.message_id = edW.id)).length ≤ 1) ∧
    (((EmailDB.store_email stEmpty edW envW Faults.none).1.db.emails.filter
        (fun e => e.message_id = edW.id)).length = 1 ∧
     EmailDB.store_email (EmailDB.store_email stEmpty edW envW Faults.none).1
        edW envW Faults.none
       = EmailDB.store_email stEmpty edW envW Faults.none ∧
     (EmailDB.store_email (EmailDB.store_email stEmpty edW envW Faults.none).1
        edW envW Faults.none).1.vs.index.vecs.length
       = (EmailDB.store_email stEmpty edW envW Faults.none).1.vs.index.vecs.length) :=
  ⟨by decide, store_email_idempotent stEmpty edW envW Faults.none (by decide)⟩

theorem foldl_dedup_of_nodup :
    ∀ (l : List (Nat × ℤ)) (acc : List Nat),
      (acc ++ l.map Prod.fst).Nodup →
      l.foldl (fun acc p => if p.1 ∈ acc then acc else acc ++ [p.1]) acc
        = acc ++ l.map Prod.fst := by
  intro l
  induction l with
  | nil => intro acc _; simp
  | cons p l ih =>
    intro acc hnd
    have hnotmem : p.1 ∉ acc := by
      rcases List.nodup_append.mp (by simpa using hnd) with ⟨h1, h2, hdisj⟩
      exact fun hmem => hdisj hmem (by simp)
    rw [List.foldl_cons, if_neg hnotmem,
      ih (acc ++ [p.1]) (by simpa [List.append_assoc] using hnd)]
    simp

theorem foldl_dedup_extends :
    ∀ (l : List Nat) (acc : List Nat),
      ∃ suffix : List Nat,
        l.foldl (fun acc i => if i ∈ acc then acc else acc ++ [i]) acc
          = acc ++ suffix := by
  intro l
  induction l with
  | nil => intro acc; exact ⟨[], by simp⟩
  | cons i l ih =>
    intro acc
    rw [List.foldl_cons]
    by_cases hm : i ∈ acc
    · rw [if_pos hm]
      exact ih acc
    · rw [if_neg hm]
      obtain ⟨sfx, hs⟩ := ih (acc ++ [i])
      exact ⟨[i] ++ sfx, by rw [hs, List.append_assoc]⟩

/-- C2: when the semantic candidate list (a set: no duplicate ids) and the
keyword candidate list are disjoint and each holds at least `limit` entries,
the hybrid search returns exactly the first `limit` semantic ids, in their
ascending-distance order, hydrated to full records in that same order. -/
theorem emaildb_search_merge (st : SysState) (q : String) (limit : Nat)
    (env : Env) (sem : List (Nat × ℤ)) (kws : List EmailRecord)
    (hsem : VectorStore.search st.vs
      (EmailEmbeddings.get_query_embedding env q) (limit * 2) = sem)
    (hkw : (search_emails st.db q (limit * 2) 0).mapM (fun x => x) = some kws)
    (hnodup : (sem.map Prod.fst).Nodup)
    (hlen : limit ≤ sem.length)
    (hklen : limit ≤ kws.length)
    (hdisj : ∀ i ∈ sem.map Prod.fst, i ∉ kws.map EmailRecord.id) :
    EmailDB.search st q limit env
      = some (((sem.map Prod.fst).take limit).map (get_email_by_id st.db)) := by
  unfold EmailDB.search
  simp only [hsem, hkw]
  have hmerge : (EmailDB.mergeIds sem (kws.map (fun r => r.id))).take limit
      = (sem.map Prod.fst).take limit := by
    unfold EmailDB.mergeIds
    rw [foldl_dedup_of_nodup sem [] (by simpa using hnodup)]
    obtain ⟨sfx, hs⟩ := foldl_dedup_extends (kws.map (fun r => r.id))
      ([] ++ sem.map Prod.fst)
    rw [hs]
    simp only [List.nil_append]
    rw [List.take_append_of_le_length (by rw [List.length_map]; exact hlen)]
  simp only [List.nil_append] at hmerge
  rw [hmerge]

set_option maxRecDepth 40000 in
/-- Witness for C2 at limit 1: the semantic arm answers email 1 from the
vector store, the keyword arm answers email 2 from the relational store, and
the final result is the hydration of the single semantic id. -/
theorem emaildb_search_merge_witness :
    (VectorStore.search stKw.vs
        (EmailEmbeddings.get_query_embedding envW "zz") (1 * 2) = [(1, 0)] ∧
      (search_emails stKw.db "zz" (1 * 2) 0).mapM (fun x => x)
        = some [⟨2, "mk", "zz", "", "", "", 0, true, true, false,
            "u@x", "U", "tg", [], [], []⟩] ∧
      (([(1, 0)] : List (Nat × ℤ)).map Prod.fst).Nodup ∧
      1 ≤ ([(1, 0)] : List (Nat × ℤ)).length) ∧
    EmailDB.search stKw "zz" 1 envW
      = some (((([(1, 0)] : List (Nat × ℤ)).map Prod.fst).take 1).map
          (get_email_by_id stKw.db)) :=
  ⟨⟨by decide, by decide, by decide, by decide⟩,
    emaildb_search_merge stKw "zz" 1 envW [(1, 0)]
      [⟨2, "mk", "zz", "", "", "", 0, true, true, false, "u@x", "U", "tg", [], [], []⟩]
      (by decide) (by decide) (by decide) (by decide) (by decide) (by decide)⟩

end EmailEngine
